import Mathlib

/-!
# Verification of the WM.Window move/resize gesture engine

A shallow embedding of `src/typescript/WM_Window.ts` (namespace `WM`,
class `Window`): edge hit-testing (`GetSizeMask`), the move gesture
(`OnMove`), the resize gesture (`OnSize`, `OnBeginSize`, `OnEndSize`),
anchor-island discovery (`TakeConnectedAnchorControls`,
`MakeAnchorControlIsland`, `GatherAnchorControls`), the detach timer,
and snap-ruler bookkeeping.

Collaborator code that is not part of the given source (the `int2`
vector class, `AABB`, `SnapCode`, the `Container.GetSnapControls`
query) is modelled from the specification's data model and interface
contracts; each such definition is marked `Modelled from the spec`.
The snap query is kept abstract as a function parameter (an oracle)
since its algorithm is explicitly out of scope.
-/

set_option autoImplicit false

namespace WM

/-- Modelled from the spec: `Vector2Int` (the `int2` class, not under
`src/`): integer (x, y) pair. -/
structure int2 where
  x : Int
  y : Int
deriving DecidableEq, Repr

/-- Modelled from the spec: component-wise addition. -/
def int2.Add (a b : int2) : int2 := ⟨a.x + b.x, a.y + b.y⟩

/-- Modelled from the spec: component-wise subtraction. -/
def int2.Sub (a b : int2) : int2 := ⟨a.x - b.x, a.y - b.y⟩

/-- Modelled from the spec: component-wise multiplication. -/
def int2.Mul (a b : int2) : int2 := ⟨a.x * b.x, a.y * b.y⟩

/-- Modelled from the spec: component-wise minimum. -/
def int2.Min (a b : int2) : int2 := ⟨min a.x b.x, min a.y b.y⟩

/-- Modelled from the spec: component-wise maximum. -/
def int2.Max (a b : int2) : int2 := ⟨max a.x b.x, max a.y b.y⟩

/-- Modelled from the spec: "min-with-zero", clamping each component to
be at most 0.  Used as the position mask during resizing. -/
def int2.Min0 (a : int2) : int2 := ⟨min a.x 0, min a.y 0⟩

/-- Modelled from the spec: `new int2(1)` / `int2.One`. -/
def int2.One : int2 := ⟨1, 1⟩

/-- Modelled from the spec: axis-aligned bounding box with min/max
corners. -/
structure AABB where
  min : int2
  max : int2
deriving DecidableEq, Repr

/-- Modelled from the spec: outward expansion of an AABB by a fixed
tolerance on every side. -/
def AABB.Expand (a : AABB) (b : Int) : AABB :=
  ⟨⟨a.min.x - b, a.min.y - b⟩, ⟨a.max.x + b, a.max.y + b⟩⟩

/-- Modelled from the spec: standard rectangle-overlap test using
min/max corners (touching boxes count as intersecting, which the snap
tolerance of `MakeControlAABB` relies on). -/
def AABB.Intersect (a b : AABB) : Bool :=
  decide (a.min.x ≤ b.max.x ∧ b.min.x ≤ a.max.x ∧
          a.min.y ≤ b.max.y ∧ b.min.y ≤ a.max.y)

/-- Modelled from the spec: `SnapCode` is a bitmask over {X-axis
snapped, Y-axis snapped, none}; `None` is 0. -/
def SnapCode.None : Nat := 0

/-- Modelled from the spec: X-axis-snapped bit of a `SnapCode`. -/
def SnapCode.X : Nat := 1

/-- Modelled from the spec: Y-axis-snapped bit of a `SnapCode`. -/
def SnapCode.Y : Nat := 2

/-- The result of a `Container.GetSnapControls` query: the `SnapCode`
bitmask and the snapped coordinate.  The query algorithm itself is an
external collaborator, so call sites take it as a function parameter
(with the call site's exclusion list already baked in). -/
abbrev SnapResult := Nat × int2

/-- A snap-query oracle standing for the external
`Container.GetSnapControls`: reference point and direction mask in,
`(SnapCode, snapped point)` out. -/
abbrev SnapOracle := int2 → int2 → SnapResult

/-! ## Edge hit-testing (`WM_Window.ts`, `GetSizeMask`, lines 249-271)

The source subtracts the parent node position when present, computes
the two pointer offsets and then runs four sequential `if` statements:
the `x` axis is first set to `1` when the offset to `BottomRight` is
within `[0, SideBarSize)` and then overwritten with `-1` when the
offset from `TopLeft` is also within range; likewise for `y`. -/

/-- `Window.GetSizeMask` translated statement-by-statement from the
source, keeping the assignment order of the four `if`s. -/
def GetSizeMask (SideBarSize : Int) (ParentNodePosition : Option int2)
    (TopLeft BottomRight : int2) (mouse_pos : int2) : int2 :=
  let mouse_pos :=
    match ParentNodePosition with
    | some p => int2.Sub mouse_pos p
    | none => mouse_pos
  let offset_top_left := int2.Sub mouse_pos TopLeft
  let offset_bottom_right := int2.Sub BottomRight mouse_pos
  let mask : int2 := ⟨0, 0⟩
  let mask := if offset_bottom_right.x < SideBarSize ∧ 0 ≤ offset_bottom_right.x
    then { mask with x := 1 } else mask
  let mask := if offset_top_left.x < SideBarSize ∧ 0 ≤ offset_top_left.x
    then { mask with x := -1 } else mask
  let mask := if offset_bottom_right.y < SideBarSize ∧ 0 ≤ offset_bottom_right.y
    then { mask with y := 1 } else mask
  let mask := if offset_top_left.y < SideBarSize ∧ 0 ≤ offset_top_left.y
    then { mask with y := -1 } else mask
  mask

/-- The hit-testing rule as the claim words it: per axis, `+1` when the
offset to `BottomRight` lies in `[0, SideBarSize)`, otherwise `-1` when
the offset from `TopLeft` lies in range, otherwise `0` (so the
`BottomRight` side wins when both are in range).  Stated from the
spec's words, to be compared with `GetSizeMask`. -/
def SpecSizeMaskClaim (SideBarSize : Int) (ParentNodePosition : Option int2)
    (TopLeft BottomRight : int2) (mouse_pos : int2) : int2 :=
  let mouse_pos :=
    match ParentNodePosition with
    | some p => int2.Sub mouse_pos p
    | none => mouse_pos
  let offset_top_left := int2.Sub mouse_pos TopLeft
  let offset_bottom_right := int2.Sub BottomRight mouse_pos
  let mx : Int :=
    if offset_bottom_right.x < SideBarSize ∧ 0 ≤ offset_bottom_right.x then 1
    else if offset_top_left.x < SideBarSize ∧ 0 ≤ offset_top_left.x then -1
    else 0
  let my : Int :=
    if offset_bottom_right.y < SideBarSize ∧ 0 ≤ offset_bottom_right.y then 1
    else if offset_top_left.y < SideBarSize ∧ 0 ≤ offset_top_left.y then -1
    else 0
  ⟨mx, my⟩

/-- The amended hit-testing rule: the `TopLeft` side has priority on
each axis, because the source's `-1` assignment executes after (and so
overwrites) the `+1` assignment. -/
def SpecSizeMaskAmended (SideBarSize : Int) (ParentNodePosition : Option int2)
    (TopLeft BottomRight : int2) (mouse_pos : int2) : int2 :=
  let mouse_pos :=
    match ParentNodePosition with
    | some p => int2.Sub mouse_pos p
    | none => mouse_pos
  let offset_top_left := int2.Sub mouse_pos TopLeft
  let offset_bottom_right := int2.Sub BottomRight mouse_pos
  let mx : Int :=
    if offset_top_left.x < SideBarSize ∧ 0 ≤ offset_top_left.x then -1
    else if offset_bottom_right.x < SideBarSize ∧ 0 ≤ offset_bottom_right.x then 1
    else 0
  let my : Int :=
    if offset_top_left.y < SideBarSize ∧ 0 ≤ offset_top_left.y then -1
    else if offset_bottom_right.y < SideBarSize ∧ 0 ≤ offset_bottom_right.y then 1
    else 0
  ⟨mx, my⟩

/-! ## The move gesture tick (`WM_Window.ts`, `OnMove`, lines 207-236)

`OnMove` sets `Position` from the drag snapshot plus the pointer
offset, then — only when a parent container exists — queries a
`TopLeft` snap (direction `(-1,-1)`) and overrides the whole position
with the snapped point on a hit, then queries a `BottomRight` snap
(direction `(1,1)`) at the possibly-updated `BottomRight` and
overrides the whole position with `snapped point - Size` on a hit.
The final `this.ParentContainer.UpdateControlSizes()` (line 231, the
`// ####` comment) is outside the null guard, so with no parent
container it dereferences `null` and the tick throws after the
position update has been applied; the second component records whether
the tick ran to completion. -/

/-- `Window.OnMove` translated from the source.  The result is the
final `Position` paired with `true` iff the tick completed without the
null dereference at the unguarded `UpdateControlSizes` call. -/
def OnMove (ParentContainer : Option SnapOracle)
    (DragWindowStartPosition Size : int2)
    (mouse_minus_start : int2) : int2 × Bool :=
  let offset := mouse_minus_start
  let Position := int2.Add DragWindowStartPosition offset
  let Position :=
    match ParentContainer with
    | none => Position
    | some snapQuery =>
      let snap_tl := snapQuery Position ⟨-1, -1⟩
      let Position := if snap_tl.1 ≠ SnapCode.None then snap_tl.2 else Position
      let snap_br := snapQuery (int2.Add Position Size) ⟨1, 1⟩
      let Position := if snap_br.1 ≠ SnapCode.None
        then int2.Sub snap_br.2 Size else Position
      Position
  (Position, ParentContainer.isSome)

/-! ## The resize gesture tick (`WM_Window.ts`, `OnSize`, lines 445-526)

Statement order of the source: compute the scaled offset, set
`Size = start size + offset*mask` and
`Position = start position - offset*Min0(mask)`; when a parent
container exists run the `BottomRight` snap (only when the mask has a
positive component) and then the `TopLeft` snap (only when the mask
has a negative component), each adjusting the propagated offset by the
snap delta on a hit; finally clamp `Size` to the minimum `(50,50)` and
`Position` to `start position + start size - (50,50)`.

The `TopLeft`/`BottomRight` setters live in the `Control` base class,
which is not under `src/`.  Modelled from the spec (`TopLeft =
position`, `BottomRight = position + size`): assigning `TopLeft` moves
`Position` keeping `Size`; assigning `BottomRight` during a resize
adjusts `Size` keeping `Position`.

As in `OnMove`, the trailing `this.ParentContainer.UpdateControlSizes()`
(line 523, `// ####`) is unguarded, so the tick throws with a null
parent container after all position/size mutations have been applied;
`completed` records this. -/

/-- The snap section of `Window.OnSize` (lines 469-503): takes the
freshly computed `Position`, `Size` and propagated `offset` and
returns their values after the two guarded snap queries. -/
def OnSizeSnap (ParentContainer : Option SnapOracle) (mask : int2)
    (Position Size offset : int2) : int2 × int2 × int2 :=
  match ParentContainer with
  | none => (Position, Size, offset)
  | some snapQuery =>
    let t :=
      if 0 < mask.x ∨ 0 < mask.y then
        let snap := snapQuery (int2.Add Position Size) mask
        if snap.1 ≠ SnapCode.None then
          let offset := int2.Add offset (int2.Sub snap.2 (int2.Add Position Size))
          (Position, int2.Sub snap.2 Position, offset)
        else (Position, Size, offset)
      else (Position, Size, offset)
    let Position := t.1
    let Size := t.2.1
    let offset := t.2.2
    if mask.x < 0 ∨ mask.y < 0 then
      let snap := snapQuery Position mask
      if snap.1 ≠ SnapCode.None then
        let offset := int2.Add offset (int2.Sub snap.2 Position)
        (snap.2, Size, offset)
      else (Position, Size, offset)
    else (Position, Size, offset)

/-- The observable outcome of one `Window.OnSize` tick on the window's
own state. -/
structure OnSizeResult where
  Position : int2
  Size : int2
  offset : int2
  completed : Bool
deriving DecidableEq, Repr

/-- `Window.OnSize` translated from the source.  `master_offset` is
`null` for the master gesture and the forwarded master offset for an
anchored window; `mouse_minus_start` is the pointer position minus the
drag start snapshot. -/
def OnSize (ParentContainer : Option SnapOracle)
    (DragWindowStartPosition DragWindowStartSize : int2)
    (mask : int2) (offset_scale : Int) (master_offset : Option int2)
    (mouse_minus_start : int2) : OnSizeResult :=
  let offset :=
    match master_offset with
    | some o => o
    | none => mouse_minus_start
  let offset := int2.Mul offset ⟨offset_scale, offset_scale⟩
  let Size := int2.Add DragWindowStartSize (int2.Mul offset mask)
  let position_mask := int2.Min0 mask
  let Position := int2.Sub DragWindowStartPosition (int2.Mul offset position_mask)
  let t := OnSizeSnap ParentContainer mask Position Size offset
  let min_window_size : int2 := ⟨50, 50⟩
  let Size := int2.Max t.2.1 min_window_size
  let Position := int2.Min t.1
    (int2.Sub (int2.Add DragWindowStartPosition DragWindowStartSize) min_window_size)
  { Position := Position, Size := Size, offset := t.2.2,
    completed := ParentContainer.isSome }

/-! ## Anchor-island discovery (`WM_Window.ts`, lines 306-358)

`TakeConnectedAnchorControls` scans `this.AnchorControls` (the
candidate pool) with an index `i`; a pool entry whose expanded AABB
intersects the seed box is pushed onto the result list and removed by
swapping the last array element into slot `i` and shrinking the array
(so `i` only advances when nothing was removed).
`MakeAnchorControlIsland` first takes everything connected to this
window's own box, then iterates over the growing result list (a
JavaScript `for...of` over an array that is being appended to observes
the appended elements), taking everything connected to each result
entry, and finally replaces `AnchorControls` with the result.

The loops are embedded with an explicit fuel argument so that they
stay structurally recursive (and hence kernel-evaluable); the wrappers
pass fuel that is provably sufficient (`TakeLoop` consumes one pool
entry per step, the island loop shrinks `pool.length + acc.length - j`
by exactly one per step). -/

/-- The part of a `Control` that island discovery reads: its
`TopLeft`/`BottomRight` corners. -/
structure ControlGeom where
  TopLeft : int2
  BottomRight : int2
deriving DecidableEq, Repr

/-- An `AnchorControls` entry: `(Control, mask, scale)`. -/
abbrev Anchor := ControlGeom × int2 × Int

/-- `Window.MakeControlAABB`: the control's box expanded by the
container's snap-border tolerance. -/
def MakeControlAABB (SnapBorderSize : Int) (control : ControlGeom) : AABB :=
  AABB.Expand ⟨control.TopLeft, control.BottomRight⟩ SnapBorderSize

/-- One swap-removal step of the `TakeConnectedAnchorControls` loop:
after the entry at slot `i` is taken, the last array element replaces
it and the array shrinks, so the tail `rest` becomes
`rest.getLast :: rest.dropLast`. -/
def swapRemoveTail {α : Type} : List α → List α
  | [] => []
  | b :: bs => (b :: bs).getLast (List.cons_ne_nil b bs) :: (b :: bs).dropLast

/-- The scan loop of `Window.TakeConnectedAnchorControls`: `kept` holds
the already-examined entries that stay in the pool (slots below `i`),
`remaining` the entries from slot `i` on, `acc` the output
`anchor_controls` list.  Returns the final pool and the final result
list.  `fuel` only needs to reach `remaining.length`. -/
def TakeLoop (SnapBorderSize : Int) (aabb_0 : AABB) :
    Nat → List Anchor → List Anchor → List Anchor → List Anchor × List Anchor
  | 0, kept, remaining, acc => (kept ++ remaining, acc)
  | _ + 1, kept, [], acc => (kept, acc)
  | fuel + 1, kept, a :: rest, acc =>
    if AABB.Intersect aabb_0 (MakeControlAABB SnapBorderSize a.1) then
      TakeLoop SnapBorderSize aabb_0 fuel kept (swapRemoveTail rest) (acc ++ [a])
    else
      TakeLoop SnapBorderSize aabb_0 fuel (kept ++ [a]) rest acc

/-- `Window.TakeConnectedAnchorControls` (lines 314-339): moves every
pool entry whose expanded box intersects `aabb_0` onto the result
list. -/
def TakeConnectedAnchorControls (SnapBorderSize : Int) (aabb_0 : AABB)
    (pool acc : List Anchor) : List Anchor × List Anchor :=
  TakeLoop SnapBorderSize aabb_0 pool.length [] pool acc

/-- The `for (let anchor_control of anchor_controls)` loop of
`Window.MakeAnchorControlIsland`: `j` indexes the growing result list;
each step seeds a `TakeConnectedAnchorControls` scan from entry `j`.
`fuel` only needs to reach `pool.length + acc.length - j`. -/
def IslandLoop (SnapBorderSize : Int) :
    Nat → List Anchor → List Anchor → Nat → List Anchor × List Anchor
  | 0, pool, acc, _ => (pool, acc)
  | fuel + 1, pool, acc, j =>
    if h : j < acc.length then
      let pr := TakeConnectedAnchorControls SnapBorderSize
        (MakeControlAABB SnapBorderSize (acc.get ⟨j, h⟩).1) pool acc
      IslandLoop SnapBorderSize fuel pr.1 pr.2 (j + 1)
    else (pool, acc)

/-- `Window.MakeAnchorControlIsland` (lines 341-358): seeds the result
with everything connected to this window's own expanded box, then
expands outward from every newly added entry.  Returns the leftover
pool (discarded by the source, kept here so the fixpoint can be
stated) and the island that replaces `AnchorControls`. -/
def MakeAnchorControlIsland (SnapBorderSize : Int) (selfGeom : ControlGeom)
    (pool : List Anchor) : List Anchor × List Anchor :=
  let pr := TakeConnectedAnchorControls SnapBorderSize
    (MakeControlAABB SnapBorderSize selfGeom) pool []
  IslandLoop SnapBorderSize (pr.1.length + pr.2.length) pr.1 pr.2 0

/-! ## Snap rulers (`WM_Window.ts`, lines 124-180)

The four ruler slots (`SnapRulers : Ruler[4]`, indexed by `Side`).  A
slot holds the ruler's coordinate when a ruler exists for that side;
creating a ruler (`SetSnapRuler`) and repositioning it both end with
the slot holding the given position, removing (`RemoveSnapRuler`)
clears the slot.  The `Ruler` visual itself and the parent container's
render set are external collaborators. -/

/-- The `Side` enum of the source. -/
inductive Side where
  | Left
  | Right
  | Top
  | Bottom
deriving DecidableEq, Repr

/-- The window's four per-side ruler slots; `some p` is a live ruler at
coordinate `p`, `none` an empty slot. -/
structure Rulers where
  left : Option Int
  right : Option Int
  top : Option Int
  bottom : Option Int
deriving DecidableEq, Repr

/-- `Window.SetSnapRuler`: create on demand or reposition; either way
the slot ends holding `position`. -/
def SetSnapRuler (r : Rulers) (side : Side) (position : Int) : Rulers :=
  match side with
  | .Left => { r with left := some position }
  | .Right => { r with right := some position }
  | .Top => { r with top := some position }
  | .Bottom => { r with bottom := some position }

/-- `Window.RemoveSnapRuler`: clear one slot (and drop the ruler from
the parent container's render set, an external effect). -/
def RemoveSnapRuler (r : Rulers) (side : Side) : Rulers :=
  match side with
  | .Left => { r with left := none }
  | .Right => { r with right := none }
  | .Top => { r with top := none }
  | .Bottom => { r with bottom := none }

/-- `Window.RemoveSnapRulers`: remove all four sides in source order. -/
def RemoveSnapRulers (r : Rulers) : Rulers :=
  RemoveSnapRuler (RemoveSnapRuler (RemoveSnapRuler (RemoveSnapRuler r .Left)
    .Right) .Top) .Bottom

/-- `Window.UpdateSnapRuler`: show or remove one side. -/
def UpdateSnapRuler (r : Rulers) (side : Side) (shown : Bool) (position : Int) :
    Rulers :=
  if shown then SetSnapRuler r side position else RemoveSnapRuler r side

/-- `Window.UpdateTLSnapRulers`: top/left rulers from a `TopLeft` snap
code. -/
def UpdateTLSnapRulers (r : Rulers) (TopLeft : int2) (snap_code : Nat) : Rulers :=
  let r := UpdateSnapRuler r .Top ((snap_code &&& SnapCode.Y) != 0) (TopLeft.y - 3)
  UpdateSnapRuler r .Left ((snap_code &&& SnapCode.X) != 0) (TopLeft.x - 3)

/-- `Window.UpdateBRSnapRulers`: bottom/right rulers from a
`BottomRight` snap code. -/
def UpdateBRSnapRulers (r : Rulers) (BottomRight : int2) (snap_code : Nat) : Rulers :=
  let r := UpdateSnapRuler r .Bottom ((snap_code &&& SnapCode.Y) != 0) (BottomRight.y + 1)
  UpdateSnapRuler r .Right ((snap_code &&& SnapCode.X) != 0) (BottomRight.x + 1)

/-! ## Gathering anchors, gesture begin and the detach timer
(`WM_Window.ts`, lines 360-443)

`GatherAnchorControls` resets `AnchorControls`, optionally (master
gestures with a parent container) runs the sibling snap queries on
side resizers and restricts the result to the connected island, then
runs the two child queries (`this.GetSnapControls` on the window's own
body) — with scale `1` on the bottom/right branch and scale `-1` on
the top/left branch.  The snap query is the external collaborator; an
oracle of type `GatherOracle` stands for it, returning the appended
anchor entries alongside the snap result.  `childCalls` records the
`(point, mask, scale)` arguments of the child queries the code issues,
so theorems can speak about the scales passed. -/

/-- A `GetSnapControls` oracle for calls that pass a non-null
`outAnchorList`: `(point, mask, scale)` in, `(SnapCode, snapped point,
appended anchors)` out. -/
abbrev GatherOracle := int2 → int2 → Int → Nat × int2 × List Anchor

/-- Result of `Window.GatherAnchorControls` on the window's own state:
the rebuilt `AnchorControls`, the updated ruler slots, and the log of
the child-recruitment queries issued. -/
structure GatherResult where
  AnchorControls : List Anchor
  rulers : Rulers
  childCalls : List (int2 × int2 × Int)
deriving Repr

/-- `Window.GatherAnchorControls` translated from the source.
`TopLeft`/`BottomRight` are this window's corners, `bodySize` the
`ControlParentNode` size used for the child queries. -/
def GatherAnchorControls (sb : Int) (parentSnap : Option GatherOracle)
    (childSnap : GatherOracle) (TopLeft BottomRight bodySize : int2)
    (rulers : Rulers) (mask : int2) (gather_sibling_anchors : Bool) :
    GatherResult :=
  let AnchorControls : List Anchor := []
  let t :=
    match parentSnap, gather_sibling_anchors with
    | some ps, true =>
      let t1 :=
        if (decide (mask.x ≠ 0)) ≠ (decide (mask.y ≠ 0)) then
          let t2 :=
            if 0 < mask.x ∨ 0 < mask.y then
              let snap := ps BottomRight mask 1
              (AnchorControls ++ snap.2.2, UpdateBRSnapRulers rulers BottomRight snap.1)
            else (AnchorControls, rulers)
          if mask.x < 0 ∨ mask.y < 0 then
            let snap := ps TopLeft mask 1
            (t2.1 ++ snap.2.2, UpdateTLSnapRulers t2.2 TopLeft snap.1)
          else t2
        else (AnchorControls, rulers)
      ((MakeAnchorControlIsland sb ⟨TopLeft, BottomRight⟩ t1.1).2, t1.2)
    | _, _ => (AnchorControls, rulers)
  let this_br := int2.Sub bodySize int2.One
  let u :=
    if 0 < mask.x ∨ 0 < mask.y then
      (t.1 ++ (childSnap this_br mask 1).2.2, [(this_br, mask, (1 : Int))])
    else (t.1, ([] : List (int2 × int2 × Int)))
  let v :=
    if mask.x < 0 ∨ mask.y < 0 then
      (u.1 ++ (childSnap this_br mask (-1)).2.2, u.2 ++ [(this_br, mask, (-1 : Int))])
    else u
  { AnchorControls := v.1, rulers := t.2, childCalls := v.2 }

/-- The window state touched by the resize-begin handler and the
detach timer. -/
structure WinState where
  Position : int2
  Size : int2
  DragMouseStartPosition : int2
  DragWindowStartPosition : int2
  DragWindowStartSize : int2
  AnchorControls : List Anchor
  SnapRulers : Rulers
  SizerMoved : Bool
deriving Repr

/-- `Window.OnBeginSize` (lines 401-443) restricted to this window's
own state: record the drag snapshot, resolve the mask (hit-testing
when `in_mask` is null), rebuild `AnchorControls` through
`GatherAnchorControls` (sibling gathering only for the master), and
reset `SizerMoved` — the flag the 1000 ms detach timer will test.  The
recursive `OnBeginSize` calls mutate the anchored windows, not this
state. -/
def OnBeginSize (sb SideBarSize : Int) (ParentNodePosition : Option int2)
    (parentSnap : Option GatherOracle) (childSnap : GatherOracle)
    (bodySize mouse_pos : int2) (in_mask : Option int2)
    (master_control : Bool) (s : WinState) : WinState :=
  let s1 := { s with
    DragMouseStartPosition := mouse_pos,
    DragWindowStartPosition := s.Position,
    DragWindowStartSize := s.Size }
  let mask :=
    match in_mask with
    | some m => m
    | none => GetSizeMask SideBarSize ParentNodePosition s1.Position
        (int2.Add s1.Position s1.Size) mouse_pos
  let g := GatherAnchorControls sb parentSnap childSnap s1.Position
    (int2.Add s1.Position s1.Size) bodySize s1.SnapRulers mask master_control
  { s1 with
    AnchorControls := g.AnchorControls,
    SnapRulers := g.rulers,
    SizerMoved := false }

/-- The detach timer callback armed by the master `OnBeginSize` (lines
427-434): when it fires with `SizerMoved` still false — no `OnSize`
tick has run — it clears `AnchorControls` and removes every snap
ruler. -/
def SizerHoldTimeout (s : WinState) : WinState :=
  if s.SizerMoved = false then
    { s with
      AnchorControls := [],
      SnapRulers := RemoveSnapRulers s.SnapRulers }
  else s

/-! ## The gesture tree and `OnEndSize` (`WM_Window.ts`, lines 527-551)

During a gesture every window's `AnchorControls` names the panels
resizing in lock-step with it; the recursive structure is a tree
(children/siblings are recruited downward, never back up).  `Control`
is a tree node: a `window` with its ruler slots and anchor list, or a
`plain` control that does not expose the resize handlers.

The TypeScript `let window = control[0] as Window; if (window != null)`
idiom does not test the runtime type: `as` is erased by the compiler,
so the guard only compares the entry against `null` and the
`OnBeginSize`/`OnSize`/`OnEndSize` call is made on every entry.  On a
non-`Window` entry the method does not exist and the call throws a
`TypeError`; the embedding returns `none` for that outcome. -/

mutual
/-- A gesture participant: a resizable window (rulers plus anchored
subtree) or a plain control without the resize handlers. -/
inductive Control where
  | plain : ControlGeom → Control
  | window : ControlGeom → Rulers → AnchorTree → Control

/-- A window's `AnchorControls` during a gesture: entries of
`(Control, mask, scale)`. -/
inductive AnchorTree where
  | nil : AnchorTree
  | cons : Control → int2 → Int → AnchorTree → AnchorTree
end

mutual
/-- `Window.OnEndSize`: end every anchored control, then clear
`AnchorControls` and remove the snap rulers.  `none` models the
`TypeError` thrown when the handler is invoked on a control that does
not have it. -/
def Control.OnEndSize : Control → Option Control
  | .plain _ => none
  | .window g r anchors =>
    match AnchorTree.endAll anchors with
    | none => none
    | some _ => some (.window g (RemoveSnapRulers r) .nil)

/-- The `for (let control of this.AnchorControls)` loop of
`OnEndSize`: the erased cast invokes `OnEndSize` on every entry; the
first non-window entry throws and aborts the loop. -/
def AnchorTree.endAll : AnchorTree → Option Unit
  | .nil => some ()
  | .cons c _ _ rest =>
    match c.OnEndSize with
    | none => none
    | some _ => AnchorTree.endAll rest
end

mutual
/-- Every participant reachable through `AnchorControls` (this node
included) is a window. -/
def Control.isWindowTree : Control → Bool
  | .plain _ => false
  | .window _ _ anchors => anchors.windowsTree

/-- All entries of an anchor list are windows, recursively. -/
def AnchorTree.windowsTree : AnchorTree → Bool
  | .nil => true
  | .cons c _ _ rest => c.isWindowTree && rest.windowsTree
end

mutual
/-- The post-gesture states of every window that participated: each
participant's own `OnEndSize` result (the recursive call that mutates
it), collected over the gesture tree. -/
def Control.postParticipants : Control → List Control
  | .plain _ => []
  | .window g r anchors =>
    ((Control.window g r anchors).OnEndSize).toList ++ anchors.postParticipants

/-- Post-gesture states collected over an anchor list. -/
def AnchorTree.postParticipants : AnchorTree → List Control
  | .nil => []
  | .cons c _ _ rest => c.postParticipants ++ rest.postParticipants
end

/-- A window whose own gesture state is fully torn down: empty
`AnchorControls` and all four ruler slots empty. -/
def Control.topCleared : Control → Bool
  | .plain _ => false
  | .window _ r anchors =>
    decide (r = ⟨none, none, none, none⟩) &&
      (match anchors with
       | .nil => true
       | .cons _ _ _ _ => false)

/-! ### Properties of the take-connected scan -/

theorem swapRemoveTail_perm {α : Type} (l : List α) :
    List.Perm (swapRemoveTail l) l := by
  match l with
  | [] => exact List.Perm.refl _
  | b :: bs =>
    have h1 : List.Perm
        ([(b :: bs).getLast (List.cons_ne_nil b bs)] ++ (b :: bs).dropLast)
        ((b :: bs).dropLast ++ [(b :: bs).getLast (List.cons_ne_nil b bs)]) :=
      List.perm_append_comm
    have h2 : (b :: bs).dropLast ++ [(b :: bs).getLast (List.cons_ne_nil b bs)]
        = b :: bs :=
      List.dropLast_append_getLast (List.cons_ne_nil b bs)
    exact h1.trans (by rw [h2])

theorem swapRemoveTail_mem {α : Type} {x : α} {l : List α} :
    x ∈ swapRemoveTail l ↔ x ∈ l :=
  (swapRemoveTail_perm l).mem_iff

theorem swapRemoveTail_length {α : Type} (l : List α) :
    (swapRemoveTail l).length = l.length :=
  (swapRemoveTail_perm l).length_eq

theorem TakeLoop_length (sb : Int) (a0 : AABB) :
    ∀ (fuel : Nat) (kept remaining acc : List Anchor),
      ((TakeLoop sb a0 fuel kept remaining acc).1).length
        + ((TakeLoop sb a0 fuel kept remaining acc).2).length
        = kept.length + remaining.length + acc.length := by
  intro fuel
  induction fuel with
  | zero => intro kept remaining acc; simp [TakeLoop]
  | succ fuel ih =>
    intro kept remaining acc
    match remaining with
    | [] => simp [TakeLoop]
    | a :: rest =>
      simp only [TakeLoop]
      split
      · rw [ih]; simp [swapRemoveTail_length]; omega
      · rw [ih]; simp; omega

theorem TakeLoop_acc_prefix (sb : Int) (a0 : AABB) :
    ∀ (fuel : Nat) (kept remaining acc : List Anchor),
      ∃ t, (TakeLoop sb a0 fuel kept remaining acc).2 = acc ++ t := by
  intro fuel
  induction fuel with
  | zero => intro kept remaining acc; exact ⟨[], by simp [TakeLoop]⟩
  | succ fuel ih =>
    intro kept remaining acc
    match remaining with
    | [] => exact ⟨[], by simp [TakeLoop]⟩
    | a :: rest =>
      simp only [TakeLoop]
      split
      · obtain ⟨t, ht⟩ := ih kept (swapRemoveTail rest) (acc ++ [a])
        exact ⟨a :: t, by simp [ht]⟩
      · exact ih (kept ++ [a]) rest acc

theorem TakeLoop_acc_mono (sb : Int) (a0 : AABB)
    (fuel : Nat) (kept remaining acc : List Anchor) :
    ∀ x ∈ acc, x ∈ (TakeLoop sb a0 fuel kept remaining acc).2 := by
  intro x hx
  obtain ⟨t, ht⟩ := TakeLoop_acc_prefix sb a0 fuel kept remaining acc
  rw [ht]
  exact List.mem_append_left t hx

theorem TakeLoop_mem_pool (sb : Int) (a0 : AABB) :
    ∀ (fuel : Nat) (kept remaining acc : List Anchor),
      remaining.length ≤ fuel →
      ∀ x ∈ (TakeLoop sb a0 fuel kept remaining acc).1,
        x ∈ kept ∨ (x ∈ remaining ∧
          AABB.Intersect a0 (MakeControlAABB sb x.1) = false) := by
  intro fuel
  induction fuel with
  | zero =>
    intro kept remaining acc hfuel x hx
    have : remaining = [] := List.length_eq_zero.mp (Nat.le_zero.mp hfuel)
    subst this
    simp [TakeLoop] at hx
    exact Or.inl hx
  | succ fuel ih =>
    intro kept remaining acc hfuel x hx
    match remaining with
    | [] =>
      simp [TakeLoop] at hx
      exact Or.inl hx
    | a :: rest =>
      simp only [TakeLoop] at hx
      by_cases hint : AABB.Intersect a0 (MakeControlAABB sb a.1) = true
      · rw [if_pos hint] at hx
        have hlen : (swapRemoveTail rest).length ≤ fuel := by
          rw [swapRemoveTail_length]; simp at hfuel; omega
        rcases ih kept (swapRemoveTail rest) (acc ++ [a]) hlen x hx with h | ⟨hm, hni⟩
        · exact Or.inl h
        · exact Or.inr ⟨List.mem_cons_of_mem a (swapRemoveTail_mem.mp hm), hni⟩
      · rw [if_neg hint] at hx
        have hlen : rest.length ≤ fuel := by
          simp at hfuel; omega
        rcases ih (kept ++ [a]) rest acc hlen x hx with h | ⟨hm, hni⟩
        · rcases List.mem_append.mp h with h | h
          · exact Or.inl h
          · have hxa : x = a := by simpa using h
            subst hxa
            exact Or.inr ⟨List.mem_cons_self _ _, Bool.not_eq_true _ ▸ hint⟩
        · exact Or.inr ⟨List.mem_cons_of_mem a hm, hni⟩

theorem TakeLoop_mem_acc (sb : Int) (a0 : AABB) :
    ∀ (fuel : Nat) (kept remaining acc : List Anchor),
      ∀ x ∈ (TakeLoop sb a0 fuel kept remaining acc).2,
        x ∈ acc ∨ x ∈ remaining := by
  intro fuel
  induction fuel with
  | zero => intro kept remaining acc x hx; simp [TakeLoop] at hx; exact Or.inl hx
  | succ fuel ih =>
    intro kept remaining acc x hx
    match remaining with
    | [] =>
      simp [TakeLoop] at hx
      exact Or.inl hx
    | a :: rest =>
      simp only [TakeLoop] at hx
      by_cases hint : AABB.Intersect a0 (MakeControlAABB sb a.1) = true
      · rw [if_pos hint] at hx
        rcases ih kept (swapRemoveTail rest) (acc ++ [a]) x hx with h | h
        · rcases List.mem_append.mp h with h | h
          · exact Or.inl h
          · exact Or.inr (by simpa using Or.inl (by simpa using h))
        · exact Or.inr (List.mem_cons_of_mem a (swapRemoveTail_mem.mp h))
      · rw [if_neg hint] at hx
        rcases ih (kept ++ [a]) rest acc x hx with h | h
        · exact Or.inl h
        · exact Or.inr (List.mem_cons_of_mem a h)

theorem TakeLoop_kept (sb : Int) (a0 : AABB) :
    ∀ (fuel : Nat) (kept remaining acc : List Anchor),
      ∀ x ∈ kept, x ∈ (TakeLoop sb a0 fuel kept remaining acc).1 := by
  intro fuel
  induction fuel with
  | zero => intro kept remaining acc x hx; simp [TakeLoop]; exact Or.inl hx
  | succ fuel ih =>
    intro kept remaining acc x hx
    match remaining with
    | [] => simpa [TakeLoop] using hx
    | a :: rest =>
      simp only [TakeLoop]
      split
      · exact ih kept (swapRemoveTail rest) (acc ++ [a]) x hx
      · exact ih (kept ++ [a]) rest acc x (List.mem_append_left _ hx)

theorem TakeLoop_complete (sb : Int) (a0 : AABB) :
    ∀ (fuel : Nat) (kept remaining acc : List Anchor),
      remaining.length ≤ fuel →
      ∀ x ∈ remaining, AABB.Intersect a0 (MakeControlAABB sb x.1) = true →
        x ∈ (TakeLoop sb a0 fuel kept remaining acc).2 := by
  intro fuel
  induction fuel with
  | zero =>
    intro kept remaining acc hfuel x hx _
    have : remaining = [] := List.length_eq_zero.mp (Nat.le_zero.mp hfuel)
    subst this
    simp at hx
  | succ fuel ih =>
    intro kept remaining acc hfuel x hx hxint
    match remaining with
    | [] => simp at hx
    | a :: rest =>
      simp only [TakeLoop]
      rcases List.mem_cons.mp hx with hxa | hxrest
      · subst hxa
        rw [if_pos hxint]
        exact TakeLoop_acc_mono sb a0 fuel kept (swapRemoveTail rest) (acc ++ [x])
          x (List.mem_append_right acc (List.mem_singleton_self x))
      · split
        · have hlen : (swapRemoveTail rest).length ≤ fuel := by
            rw [swapRemoveTail_length]; simp at hfuel; omega
          exact ih kept (swapRemoveTail rest) (acc ++ [a]) hlen x
            (swapRemoveTail_mem.mpr hxrest) hxint
        · have hlen : rest.length ≤ fuel := by
            simp at hfuel; omega
          exact ih (kept ++ [a]) rest acc hlen x hxrest hxint

theorem TakeLoop_classify (sb : Int) (a0 : AABB) :
    ∀ (fuel : Nat) (kept remaining acc : List Anchor),
      ∀ x ∈ remaining,
        x ∈ (TakeLoop sb a0 fuel kept remaining acc).1 ∨
        x ∈ (TakeLoop sb a0 fuel kept remaining acc).2 := by
  intro fuel
  induction fuel with
  | zero =>
    intro kept remaining acc x hx
    simp [TakeLoop]
    exact Or.inl (Or.inr hx)
  | succ fuel ih =>
    intro kept remaining acc x hx
    match remaining with
    | [] => simp at hx
    | a :: rest =>
      simp only [TakeLoop]
      rcases List.mem_cons.mp hx with hxa | hxrest
      · subst hxa
        split
        · exact Or.inr (TakeLoop_acc_mono sb a0 fuel kept (swapRemoveTail rest)
            (acc ++ [x]) x (List.mem_append_right acc (List.mem_singleton_self x)))
        · exact Or.inl (TakeLoop_kept sb a0 fuel (kept ++ [x]) rest acc x
            (List.mem_append_right kept (List.mem_singleton_self x)))
      · split
        · exact ih kept (swapRemoveTail rest) (acc ++ [a]) x
            (swapRemoveTail_mem.mpr hxrest)
        · exact ih (kept ++ [a]) rest acc x hxrest

theorem TakeConnected_length (sb : Int) (a0 : AABB) (pool acc : List Anchor) :
    ((TakeConnectedAnchorControls sb a0 pool acc).1).length
      + ((TakeConnectedAnchorControls sb a0 pool acc).2).length
      = pool.length + acc.length := by
  have h := TakeLoop_length sb a0 pool.length [] pool acc
  simpa [TakeConnectedAnchorControls] using h

theorem TakeConnected_mem_pool (sb : Int) (a0 : AABB) (pool acc : List Anchor)
    {x : Anchor} (hx : x ∈ (TakeConnectedAnchorControls sb a0 pool acc).1) :
    x ∈ pool ∧ AABB.Intersect a0 (MakeControlAABB sb x.1) = false := by
  rcases TakeLoop_mem_pool sb a0 pool.length [] pool acc (Nat.le_refl _) x hx with
    h | h
  · simp at h
  · exact h

theorem TakeConnected_mem_acc (sb : Int) (a0 : AABB) (pool acc : List Anchor)
    {x : Anchor} (hx : x ∈ (TakeConnectedAnchorControls sb a0 pool acc).2) :
    x ∈ acc ∨ x ∈ pool :=
  TakeLoop_mem_acc sb a0 pool.length [] pool acc x hx

theorem TakeConnected_acc_prefix (sb : Int) (a0 : AABB) (pool acc : List Anchor) :
    ∃ t, (TakeConnectedAnchorControls sb a0 pool acc).2 = acc ++ t :=
  TakeLoop_acc_prefix sb a0 pool.length [] pool acc

theorem TakeConnected_acc_mono (sb : Int) (a0 : AABB) (pool acc : List Anchor)
    {x : Anchor} (hx : x ∈ acc) :
    x ∈ (TakeConnectedAnchorControls sb a0 pool acc).2 :=
  TakeLoop_acc_mono sb a0 pool.length [] pool acc x hx

theorem TakeConnected_complete (sb : Int) (a0 : AABB) (pool acc : List Anchor)
    {x : Anchor} (hx : x ∈ pool)
    (hint : AABB.Intersect a0 (MakeControlAABB sb x.1) = true) :
    x ∈ (TakeConnectedAnchorControls sb a0 pool acc).2 :=
  TakeLoop_complete sb a0 pool.length [] pool acc (Nat.le_refl _) x hx hint

theorem TakeConnected_classify (sb : Int) (a0 : AABB) (pool acc : List Anchor)
    {x : Anchor} (hx : x ∈ pool) :
    x ∈ (TakeConnectedAnchorControls sb a0 pool acc).1 ∨
    x ∈ (TakeConnectedAnchorControls sb a0 pool acc).2 :=
  TakeLoop_classify sb a0 pool.length [] pool acc x hx

/-! ### Properties of the island expansion loop -/

theorem IslandLoop_acc_prefix (sb : Int) :
    ∀ (fuel : Nat) (pool acc : List Anchor) (j : Nat),
      ∃ t, (IslandLoop sb fuel pool acc j).2 = acc ++ t := by
  intro fuel
  induction fuel with
  | zero => intro pool acc j; exact ⟨[], by simp [IslandLoop]⟩
  | succ fuel ih =>
    intro pool acc j
    simp only [IslandLoop]
    split
    · next h =>
      obtain ⟨t1, ht1⟩ := TakeConnected_acc_prefix sb
        (MakeControlAABB sb (acc.get ⟨j, h⟩).1) pool acc
      obtain ⟨t2, ht2⟩ := ih _ _ (j + 1)
      exact ⟨t1 ++ t2, by rw [ht2, ht1, List.append_assoc]⟩
    · exact ⟨[], by simp⟩

theorem IslandLoop_acc_mono (sb : Int) (fuel : Nat) (pool acc : List Anchor)
    (j : Nat) {x : Anchor} (hx : x ∈ acc) :
    x ∈ (IslandLoop sb fuel pool acc j).2 := by
  obtain ⟨t, ht⟩ := IslandLoop_acc_prefix sb fuel pool acc j
  rw [ht]
  exact List.mem_append_left t hx

theorem IslandLoop_mem_pool (sb : Int) :
    ∀ (fuel : Nat) (pool acc : List Anchor) (j : Nat),
      ∀ x ∈ (IslandLoop sb fuel pool acc j).1, x ∈ pool := by
  intro fuel
  induction fuel with
  | zero => intro pool acc j x hx; simpa [IslandLoop] using hx
  | succ fuel ih =>
    intro pool acc j x hx
    simp only [IslandLoop] at hx
    by_cases h : j < acc.length
    · rw [dif_pos h] at hx
      exact (TakeConnected_mem_pool sb _ pool acc (ih _ _ _ x hx)).1
    · rw [dif_neg h] at hx
      exact hx

theorem IslandLoop_classify (sb : Int) :
    ∀ (fuel : Nat) (pool acc : List Anchor) (j : Nat),
      ∀ x ∈ pool,
        x ∈ (IslandLoop sb fuel pool acc j).1 ∨
        x ∈ (IslandLoop sb fuel pool acc j).2 := by
  intro fuel
  induction fuel with
  | zero => intro pool acc j x hx; simp [IslandLoop]; exact Or.inl hx
  | succ fuel ih =>
    intro pool acc j x hx
    simp only [IslandLoop]
    by_cases h : j < acc.length
    · rw [dif_pos h]
      rcases TakeConnected_classify sb
        (MakeControlAABB sb (acc.get ⟨j, h⟩).1) pool acc hx with hp | ha
      · exact ih _ _ _ x hp
      · exact Or.inr (IslandLoop_acc_mono sb fuel _ _ (j + 1) ha)
    · rw [dif_neg h]
      exact Or.inl hx

theorem get_eq_of_list_eq {α : Type} {l l2 : List α} (h : l = l2) (i : Nat)
    (hi : i < l.length) : l.get ⟨i, hi⟩ = l2.get ⟨i, h ▸ hi⟩ := by
  subst h; rfl

theorem IslandLoop_fixpoint (sb : Int) :
    ∀ (fuel : Nat) (pool acc : List Anchor) (j : Nat),
      pool.length + acc.length ≤ fuel + j →
      (∀ (i : Nat), i < j → ∀ (hia : i < acc.length), ∀ p ∈ pool,
        AABB.Intersect (MakeControlAABB sb (acc.get ⟨i, hia⟩).1)
          (MakeControlAABB sb p.1) = false) →
      ∀ r ∈ (IslandLoop sb fuel pool acc j).2,
        ∀ p ∈ (IslandLoop sb fuel pool acc j).1,
          AABB.Intersect (MakeControlAABB sb r.1)
            (MakeControlAABB sb p.1) = false := by
  intro fuel
  induction fuel with
  | zero =>
    intro pool acc j hfuel hinv r hr p hp
    have hr2 : r ∈ acc := hr
    have hp2 : p ∈ pool := hp
    obtain ⟨⟨i, hia⟩, hi⟩ := List.get_of_mem hr2
    have hij : i < j := by omega
    have hres := hinv i hij hia p hp2
    rw [hi] at hres
    exact hres
  | succ fuel ih =>
    intro pool acc j hfuel hinv r hr p hp
    simp only [IslandLoop] at hr hp
    by_cases h : j < acc.length
    · rw [dif_pos h] at hr hp
      set seed := MakeControlAABB sb (acc.get ⟨j, h⟩).1 with hseed
      obtain ⟨t1, ht1⟩ := TakeConnected_acc_prefix sb seed pool acc
      refine ih (TakeConnectedAnchorControls sb seed pool acc).1
        (TakeConnectedAnchorControls sb seed pool acc).2 (j + 1) ?_ ?_ r hr p hp
      · have hlen := TakeConnected_length sb seed pool acc
        omega
      · intro i hij1 hia q hq
        have hqp := TakeConnected_mem_pool sb seed pool acc hq
        have hia2 : i < (acc ++ t1).length := ht1 ▸ hia
        have e1 : ((TakeConnectedAnchorControls sb seed pool acc).2).get ⟨i, hia⟩
            = (acc ++ t1).get ⟨i, hia2⟩ := get_eq_of_list_eq ht1 i hia
        by_cases hij : i < j
        · have hial : i < acc.length := by omega
          have e2 : (acc ++ t1).get ⟨i, hia2⟩ = acc.get ⟨i, hial⟩ :=
            List.getElem_append_left hial
          rw [e1, e2]
          exact hinv i hij hial q hqp.1
        · have hij2 : i = j := by omega
          subst hij2
          have e2 : (acc ++ t1).get ⟨i, hia2⟩ = acc.get ⟨i, h⟩ :=
            List.getElem_append_left h
          rw [e1, e2, ← hseed]
          exact hqp.2
    · rw [dif_neg h] at hr hp
      have hr2 : r ∈ acc := hr
      have hp2 : p ∈ pool := hp
      obtain ⟨⟨i, hia⟩, hi⟩ := List.get_of_mem hr2
      have hij : i < j := by omega
      have hres := hinv i hij hia p hp2
      rw [hi] at hres
      exact hres

/-- C4: anchor-island discovery computes the full connected component
of the intersects-within-tolerance relation over the candidate pool:
whenever the seed window's expanded box intersects pool panel `B`'s and
`B`'s intersects pool panel `C`'s, the island contains both `B` and
`C`; and the expansion terminates in a fixpoint where no leftover pool
panel's expanded box intersects the seed box or any island member's
box, so no further panel is addable. -/
theorem MakeAnchorControlIsland_connected_component (sb : Int)
    (selfGeom : ControlGeom) (pool : List Anchor) (B C : Anchor)
    (hB : B ∈ pool) (hC : C ∈ pool)
    (hAB : AABB.Intersect (MakeControlAABB sb selfGeom)
      (MakeControlAABB sb B.1) = true)
    (hBC : AABB.Intersect (MakeControlAABB sb B.1)
      (MakeControlAABB sb C.1) = true) :
    B ∈ (MakeAnchorControlIsland sb selfGeom pool).2 ∧
    C ∈ (MakeAnchorControlIsland sb selfGeom pool).2 ∧
    ∀ p ∈ (MakeAnchorControlIsland sb selfGeom pool).1,
      AABB.Intersect (MakeControlAABB sb selfGeom)
        (MakeControlAABB sb p.1) = false ∧
      ∀ r ∈ (MakeAnchorControlIsland sb selfGeom pool).2,
        AABB.Intersect (MakeControlAABB sb r.1)
          (MakeControlAABB sb p.1) = false := by
  have hisland : MakeAnchorControlIsland sb selfGeom pool =
      IslandLoop sb
        ((TakeConnectedAnchorControls sb (MakeControlAABB sb selfGeom) pool []).1.length
          + (TakeConnectedAnchorControls sb (MakeControlAABB sb selfGeom) pool []).2.length)
        (TakeConnectedAnchorControls sb (MakeControlAABB sb selfGeom) pool []).1
        (TakeConnectedAnchorControls sb (MakeControlAABB sb selfGeom) pool []).2
        0 := rfl
  set a0 := MakeControlAABB sb selfGeom with ha0
  set pr := TakeConnectedAnchorControls sb a0 pool [] with hpr
  set fuel := pr.1.length + pr.2.length with hfuel
  have hfix := IslandLoop_fixpoint sb fuel pr.1 pr.2 0 (by omega)
    (by intro i hij; omega)
  have hBacc : B ∈ pr.2 := TakeConnected_complete sb a0 pool [] hB hAB
  have hBisland : B ∈ (IslandLoop sb fuel pr.1 pr.2 0).2 :=
    IslandLoop_acc_mono sb fuel pr.1 pr.2 0 hBacc
  rw [hisland]
  refine ⟨hBisland, ?_, ?_⟩
  · rcases TakeConnected_classify sb a0 pool [] hC with hCp | hCa
    · rcases IslandLoop_classify sb fuel pr.1 pr.2 0 C hCp with h1 | h2
      · exact absurd (hfix B hBisland C h1) (by simp [hBC])
      · exact h2
    · exact IslandLoop_acc_mono sb fuel pr.1 pr.2 0 hCa
  · intro p hp
    have hp0 : p ∈ pr.1 := IslandLoop_mem_pool sb fuel pr.1 pr.2 0 p hp
    refine ⟨(TakeConnected_mem_pool sb a0 pool [] hp0).2, ?_⟩
    intro r hr
    exact hfix r hr p hp

/-- Witness for C4 at a concrete pool: seed box `(0,0)-(10,10)`, `B` at
`(10,0)-(20,10)` touching the seed, `C` at `(20,0)-(30,10)` touching
`B` but not the seed, plus a disconnected panel at
`(100,100)-(110,110)`; the island picks up `B` and `C` and leaves the
disconnected panel outside with nothing further addable. -/
theorem MakeAnchorControlIsland_connected_component_witness :
    ((⟨⟨⟨10, 0⟩, ⟨20, 10⟩⟩, ⟨-1, 0⟩, 1⟩ : Anchor) ∈
        ([⟨⟨⟨10, 0⟩, ⟨20, 10⟩⟩, ⟨-1, 0⟩, 1⟩, ⟨⟨⟨20, 0⟩, ⟨30, 10⟩⟩, ⟨-1, 0⟩, 1⟩,
          ⟨⟨⟨100, 100⟩, ⟨110, 110⟩⟩, ⟨0, -1⟩, 1⟩] : List Anchor)) ∧
    ((⟨⟨⟨20, 0⟩, ⟨30, 10⟩⟩, ⟨-1, 0⟩, 1⟩ : Anchor) ∈
        ([⟨⟨⟨10, 0⟩, ⟨20, 10⟩⟩, ⟨-1, 0⟩, 1⟩, ⟨⟨⟨20, 0⟩, ⟨30, 10⟩⟩, ⟨-1, 0⟩, 1⟩,
          ⟨⟨⟨100, 100⟩, ⟨110, 110⟩⟩, ⟨0, -1⟩, 1⟩] : List Anchor)) ∧
    AABB.Intersect (MakeControlAABB 0 ⟨⟨0, 0⟩, ⟨10, 10⟩⟩)
      (MakeControlAABB 0 ⟨⟨10, 0⟩, ⟨20, 10⟩⟩) = true ∧
    AABB.Intersect (MakeControlAABB 0 ⟨⟨10, 0⟩, ⟨20, 10⟩⟩)
      (MakeControlAABB 0 ⟨⟨20, 0⟩, ⟨30, 10⟩⟩) = true ∧
    ((⟨⟨⟨10, 0⟩, ⟨20, 10⟩⟩, ⟨-1, 0⟩, 1⟩ : Anchor) ∈
      (MakeAnchorControlIsland 0 ⟨⟨0, 0⟩, ⟨10, 10⟩⟩
        [⟨⟨⟨10, 0⟩, ⟨20, 10⟩⟩, ⟨-1, 0⟩, 1⟩, ⟨⟨⟨20, 0⟩, ⟨30, 10⟩⟩, ⟨-1, 0⟩, 1⟩,
          ⟨⟨⟨100, 100⟩, ⟨110, 110⟩⟩, ⟨0, -1⟩, 1⟩]).2 ∧
     (⟨⟨⟨20, 0⟩, ⟨30, 10⟩⟩, ⟨-1, 0⟩, 1⟩ : Anchor) ∈
      (MakeAnchorControlIsland 0 ⟨⟨0, 0⟩, ⟨10, 10⟩⟩
        [⟨⟨⟨10, 0⟩, ⟨20, 10⟩⟩, ⟨-1, 0⟩, 1⟩, ⟨⟨⟨20, 0⟩, ⟨30, 10⟩⟩, ⟨-1, 0⟩, 1⟩,
          ⟨⟨⟨100, 100⟩, ⟨110, 110⟩⟩, ⟨0, -1⟩, 1⟩]).2 ∧
     ∀ p ∈ (MakeAnchorControlIsland 0 ⟨⟨0, 0⟩, ⟨10, 10⟩⟩
        [⟨⟨⟨10, 0⟩, ⟨20, 10⟩⟩, ⟨-1, 0⟩, 1⟩, ⟨⟨⟨20, 0⟩, ⟨30, 10⟩⟩, ⟨-1, 0⟩, 1⟩,
          ⟨⟨⟨100, 100⟩, ⟨110, 110⟩⟩, ⟨0, -1⟩, 1⟩]).1,
       AABB.Intersect (MakeControlAABB 0 ⟨⟨0, 0⟩, ⟨10, 10⟩⟩)
         (MakeControlAABB 0 p.1) = false ∧
       ∀ r ∈ (MakeAnchorControlIsland 0 ⟨⟨0, 0⟩, ⟨10, 10⟩⟩
          [⟨⟨⟨10, 0⟩, ⟨20, 10⟩⟩, ⟨-1, 0⟩, 1⟩, ⟨⟨⟨20, 0⟩, ⟨30, 10⟩⟩, ⟨-1, 0⟩, 1⟩,
            ⟨⟨⟨100, 100⟩, ⟨110, 110⟩⟩, ⟨0, -1⟩, 1⟩]).2,
         AABB.Intersect (MakeControlAABB 0 r.1)
           (MakeControlAABB 0 p.1) = false) :=
  ⟨by decide, by decide, by decide, by decide,
    MakeAnchorControlIsland_connected_component 0 ⟨⟨0, 0⟩, ⟨10, 10⟩⟩
      [⟨⟨⟨10, 0⟩, ⟨20, 10⟩⟩, ⟨-1, 0⟩, 1⟩, ⟨⟨⟨20, 0⟩, ⟨30, 10⟩⟩, ⟨-1, 0⟩, 1⟩,
        ⟨⟨⟨100, 100⟩, ⟨110, 110⟩⟩, ⟨0, -1⟩, 1⟩]
      ⟨⟨⟨10, 0⟩, ⟨20, 10⟩⟩, ⟨-1, 0⟩, 1⟩ ⟨⟨⟨20, 0⟩, ⟨30, 10⟩⟩, ⟨-1, 0⟩, 1⟩
      (by decide) (by decide) (by decide) (by decide)⟩

/-! ### Claims about the resize tick geometry -/

/-- Counterexample to C1 as stated: with no parent container, an empty
anchor list and the one-axis mask `(1,0)`, the offset `(-100,0)` does
not change the size by `offset*mask`: the minimum-size clamp at the end
of the tick (line 507) raises the width to 50 instead of 0. -/
theorem OnSize_exact_delta_cex :
    ¬ ((OnSize none ⟨0, 0⟩ ⟨100, 100⟩ ⟨1, 0⟩ 1 none ⟨-100, 0⟩).Size
      = int2.Add ⟨100, 100⟩ (int2.Mul ⟨-100, 0⟩ ⟨1, 0⟩)) := by decide

/-- C1 as amended: for a mask with exactly one nonzero axis, no parent
container and an empty anchor list, and an offset that keeps both
components of `start size + offset*mask` at or above the minimum 50
(so the final clamp does not engage; the start size obeys the data
model's minimum-size invariant), the tick sets the size to
exactly `start size + offset*mask` — the passive axis unchanged — and
the position to `start position - offset*Min0(mask)`, so the position
moves only on a negative-mask axis. -/
theorem OnSize_one_axis_exact_delta (startPos startSize mask d : int2)
    (hmask : mask = ⟨1, 0⟩ ∨ mask = ⟨-1, 0⟩ ∨ mask = ⟨0, 1⟩ ∨ mask = ⟨0, -1⟩)
    (hmin : 50 ≤ startSize.x ∧ 50 ≤ startSize.y)
    (hnoclamp : 50 ≤ (int2.Add startSize (int2.Mul d mask)).x ∧
      50 ≤ (int2.Add startSize (int2.Mul d mask)).y) :
    (OnSize none startPos startSize mask 1 none d).Size
      = int2.Add startSize (int2.Mul d mask) ∧
    (OnSize none startPos startSize mask 1 none d).Position
      = int2.Sub startPos (int2.Mul d (int2.Min0 mask)) := by
  obtain ⟨h1, h2⟩ := hnoclamp
  obtain ⟨hm1, hm2⟩ := hmin
  rcases hmask with rfl | rfl | rfl | rfl <;>
    (simp [OnSize, OnSizeSnap, int2.Add, int2.Sub, int2.Mul, int2.Min0,
      int2.Max, int2.Min, int2.mk.injEq] at *; omega)

/-- Witness for C1 (amended): dragging the right edge (`mask (1,0)`)
by `(+20,0)` from size `(100,100)` grows the width to 120 and leaves
the position at `(0,0)`. -/
theorem OnSize_one_axis_exact_delta_witness :
    ((⟨1, 0⟩ : int2) = ⟨1, 0⟩ ∨ (⟨1, 0⟩ : int2) = ⟨-1, 0⟩ ∨
      (⟨1, 0⟩ : int2) = ⟨0, 1⟩ ∨ (⟨1, 0⟩ : int2) = ⟨0, -1⟩) ∧
    (50 ≤ (⟨100, 100⟩ : int2).x ∧ 50 ≤ (⟨100, 100⟩ : int2).y) ∧
    (50 ≤ (int2.Add ⟨100, 100⟩ (int2.Mul ⟨20, 0⟩ ⟨1, 0⟩)).x ∧
      50 ≤ (int2.Add ⟨100, 100⟩ (int2.Mul ⟨20, 0⟩ ⟨1, 0⟩)).y) ∧
    ((OnSize none ⟨0, 0⟩ ⟨100, 100⟩ ⟨1, 0⟩ 1 none ⟨20, 0⟩).Size
        = int2.Add ⟨100, 100⟩ (int2.Mul ⟨20, 0⟩ ⟨1, 0⟩) ∧
      (OnSize none ⟨0, 0⟩ ⟨100, 100⟩ ⟨1, 0⟩ 1 none ⟨20, 0⟩).Position
        = int2.Sub ⟨0, 0⟩ (int2.Mul ⟨20, 0⟩ (int2.Min0 ⟨1, 0⟩))) :=
  ⟨by decide, by decide, by decide,
    OnSize_one_axis_exact_delta ⟨0, 0⟩ ⟨100, 100⟩ ⟨1, 0⟩ ⟨20, 0⟩
      (by decide) (by decide) (by decide)⟩

/-- C2: every resize tick — any container/snap oracle, mask, scale and
offset — ends with both size components at least the minimum 50 and
both position components clamped to `start position + start size - 50`,
keeping the far corner fixed when the clamp engages. -/
theorem OnSize_clamps_to_minimum (ParentContainer : Option SnapOracle)
    (startPos startSize mask : int2) (offset_scale : Int)
    (master_offset : Option int2) (mouse_minus_start : int2) :
    50 ≤ (OnSize ParentContainer startPos startSize mask offset_scale
      master_offset mouse_minus_start).Size.x ∧
    50 ≤ (OnSize ParentContainer startPos startSize mask offset_scale
      master_offset mouse_minus_start).Size.y ∧
    (OnSize ParentContainer startPos startSize mask offset_scale
      master_offset mouse_minus_start).Position.x ≤ startPos.x + startSize.x - 50 ∧
    (OnSize ParentContainer startPos startSize mask offset_scale
      master_offset mouse_minus_start).Position.y ≤ startPos.y + startSize.y - 50 := by
  simp only [OnSize, int2.Max, int2.Min, int2.Add, int2.Sub]
  refine ⟨le_max_right _ _, le_max_right _ _, min_le_right _ _, min_le_right _ _⟩

/-- Counterexample to C3 as stated: window `(0,0)-(50,50)` with
grab-zone width 30 and the pointer at `(25,100)`: on the x axis both
the `BottomRight` offset (25) and the `TopLeft` offset (25) lie in
`[0,30)`, and `GetSizeMask` answers `-1` — the `TopLeft` side wins,
because the source's `-1` assignment runs after the `+1` assignment —
while the claim's rule answers `+1`. -/
theorem GetSizeMask_priority_cex :
    GetSizeMask 30 none ⟨0, 0⟩ ⟨50, 50⟩ ⟨25, 100⟩ = ⟨-1, 0⟩ ∧
    SpecSizeMaskClaim 30 none ⟨0, 0⟩ ⟨50, 50⟩ ⟨25, 100⟩ = ⟨1, 0⟩ ∧
    GetSizeMask 30 none ⟨0, 0⟩ ⟨50, 50⟩ ⟨25, 100⟩
      ≠ SpecSizeMaskClaim 30 none ⟨0, 0⟩ ⟨50, 50⟩ ⟨25, 100⟩ := by decide

/-- C3 as amended: each axis of the mask is computed independently as
`-1` when the offset from `TopLeft` lies in `[0, grab-zone-width)`,
otherwise `+1` when the offset to `BottomRight` lies in range,
otherwise `0` — when both offsets are in range the `TopLeft` side wins
(`-1`). -/
theorem GetSizeMask_eq_amended_rule (SideBarSize : Int)
    (ParentNodePosition : Option int2) (TopLeft BottomRight mouse_pos : int2) :
    GetSizeMask SideBarSize ParentNodePosition TopLeft BottomRight mouse_pos
      = SpecSizeMaskAmended SideBarSize ParentNodePosition TopLeft BottomRight
          mouse_pos := by
  cases ParentNodePosition <;>
    (simp only [GetSizeMask, SpecSizeMaskAmended]; split_ifs <;> rfl)

/-- C7: with no parent container, the move tick and the resize tick
still apply the computed position/size updates, but the tick does not
complete: the trailing `this.ParentContainer.UpdateControlSizes()`
calls (lines 231 and 523, both flagged `// ####` in the source and
outside the null guards) dereference `null`, contradicting the
claimed no-op degradation. -/
theorem no_container_tick_throws (startPos size d sp ss mask : int2)
    (sc : Int) (mo : Option int2) :
    (OnMove none startPos size d).1 = int2.Add startPos d ∧
    (OnMove none startPos size d).2 = false ∧
    (OnSize none sp ss mask sc mo d).completed = false :=
  ⟨rfl, rfl, rfl⟩

/-! ### Claims about gesture begin, the detach timer and anchor gathering -/

/-- C5: for every master resize-gesture begin — any mask (hit-tested or
inherited, corners included), any snap oracles and any starting state,
in particular one whose gather produces a nonempty `AnchorControls` —
if no movement tick runs before the one-shot 1000 ms timer fires, the
timer callback finds `SizerMoved` still false and clears
`AnchorControls` and removes all four snap rulers, without any
pointer-up. -/
theorem detach_timer_clears_anchors (sb SideBarSize : Int)
    (ParentNodePosition : Option int2) (parentSnap : Option GatherOracle)
    (childSnap : GatherOracle) (bodySize mouse_pos : int2)
    (in_mask : Option int2) (s : WinState) :
    (SizerHoldTimeout (OnBeginSize sb SideBarSize ParentNodePosition parentSnap
      childSnap bodySize mouse_pos in_mask true s)).AnchorControls = [] ∧
    (SizerHoldTimeout (OnBeginSize sb SideBarSize ParentNodePosition parentSnap
      childSnap bodySize mouse_pos in_mask true s)).SnapRulers
      = ⟨none, none, none, none⟩ :=
  ⟨rfl, rfl⟩

/-- C9: during anchor gathering the child-recruitment query on the
window's body is issued with scale `+1` exactly when the mask has a
positive component (bottom/right resize) and with scale `-1` exactly
when the mask has a negative component (top/left resize), and no child
query is issued with any other scale. -/
theorem GatherAnchorControls_child_scales (sb : Int)
    (parentSnap : Option GatherOracle) (childSnap : GatherOracle)
    (TopLeft BottomRight bodySize : int2) (rulers : Rulers) (mask : int2)
    (gather_sibling_anchors : Bool) :
    ((0 < mask.x ∨ 0 < mask.y) ↔
      (int2.Sub bodySize int2.One, mask, (1 : Int)) ∈
        (GatherAnchorControls sb parentSnap childSnap TopLeft BottomRight
          bodySize rulers mask gather_sibling_anchors).childCalls) ∧
    ((mask.x < 0 ∨ mask.y < 0) ↔
      (int2.Sub bodySize int2.One, mask, (-1 : Int)) ∈
        (GatherAnchorControls sb parentSnap childSnap TopLeft BottomRight
          bodySize rulers mask gather_sibling_anchors).childCalls) ∧
    ∀ c ∈ (GatherAnchorControls sb parentSnap childSnap TopLeft BottomRight
        bodySize rulers mask gather_sibling_anchors).childCalls,
      c = (int2.Sub bodySize int2.One, mask, (1 : Int)) ∨
      c = (int2.Sub bodySize int2.One, mask, (-1 : Int)) := by
  cases parentSnap <;> cases gather_sibling_anchors <;>
    by_cases hpos : 0 < mask.x ∨ 0 < mask.y <;>
      by_cases hneg : mask.x < 0 ∨ mask.y < 0 <;>
        simp [GatherAnchorControls, hpos, hneg]

/-- C10: when, during one move tick, both the `TopLeft` and the
`BottomRight` snap queries report a nonzero snap code, the final
position is `snapped BottomRight point - Size` — the whole position
vector from the `BottomRight` result, discarding the `TopLeft`
override applied earlier in the tick (which itself had replaced the
whole position vector). -/
theorem OnMove_br_snap_overrides (snapQuery : SnapOracle) (startPos Size d : int2)
    (htl : (snapQuery (int2.Add startPos d) ⟨-1, -1⟩).1 ≠ SnapCode.None)
    (hbr : (snapQuery (int2.Add (snapQuery (int2.Add startPos d) ⟨-1, -1⟩).2 Size)
      ⟨1, 1⟩).1 ≠ SnapCode.None) :
    (OnMove (some snapQuery) startPos Size d).1
      = int2.Sub (snapQuery
          (int2.Add (snapQuery (int2.Add startPos d) ⟨-1, -1⟩).2 Size)
          ⟨1, 1⟩).2 Size := by
  simp only [OnMove]
  rw [if_pos htl, if_pos hbr]

/-- Witness for C10 at a concrete oracle that always reports a snap at
`(7,9)`: the final position is `(7,9) - Size`. -/
theorem OnMove_br_snap_overrides_witness :
    (((fun (_ _ : int2) => ((1 : Nat), (⟨7, 9⟩ : int2))) : SnapOracle)
        (int2.Add ⟨0, 0⟩ ⟨5, 5⟩) ⟨-1, -1⟩).1 ≠ SnapCode.None ∧
    (((fun (_ _ : int2) => ((1 : Nat), (⟨7, 9⟩ : int2))) : SnapOracle)
        (int2.Add (((fun (_ _ : int2) => ((1 : Nat), (⟨7, 9⟩ : int2))) : SnapOracle)
          (int2.Add ⟨0, 0⟩ ⟨5, 5⟩) ⟨-1, -1⟩).2 ⟨50, 60⟩) ⟨1, 1⟩).1
      ≠ SnapCode.None ∧
    (OnMove (some ((fun (_ _ : int2) => ((1 : Nat), (⟨7, 9⟩ : int2))) : SnapOracle))
        ⟨0, 0⟩ ⟨50, 60⟩ ⟨5, 5⟩).1
      = int2.Sub (((fun (_ _ : int2) => ((1 : Nat), (⟨7, 9⟩ : int2))) : SnapOracle)
          (int2.Add (((fun (_ _ : int2) => ((1 : Nat), (⟨7, 9⟩ : int2))) : SnapOracle)
            (int2.Add ⟨0, 0⟩ ⟨5, 5⟩) ⟨-1, -1⟩).2 ⟨50, 60⟩) ⟨1, 1⟩).2 ⟨50, 60⟩ :=
  ⟨by decide, by decide,
    OnMove_br_snap_overrides ((fun (_ _ : int2) => ((1 : Nat), (⟨7, 9⟩ : int2))))
      ⟨0, 0⟩ ⟨50, 60⟩ ⟨5, 5⟩ (by decide) (by decide)⟩

/-! ### Claims about gesture end and anchor propagation -/

mutual
theorem Control.endSize_clears_aux : ∀ c : Control, Control.isWindowTree c = true →
    (Control.OnEndSize c).isSome = true ∧
    ∀ w ∈ Control.postParticipants c, Control.topCleared w = true
  | .plain _, h => by simp [Control.isWindowTree] at h
  | .window g r anchors, h => by
    have hw : AnchorTree.windowsTree anchors = true := h
    obtain ⟨he, hp⟩ := AnchorTree.endAll_clears_aux anchors hw
    constructor
    · simp [Control.OnEndSize, he]
    · intro w hwmem
      simp only [Control.postParticipants] at hwmem
      rcases List.mem_append.mp hwmem with h1 | h2
      · simp [Control.OnEndSize, he] at h1
        subst h1
        simp [Control.topCleared, RemoveSnapRulers, RemoveSnapRuler]
      · exact hp w h2

theorem AnchorTree.endAll_clears_aux : ∀ a : AnchorTree,
    AnchorTree.windowsTree a = true →
    AnchorTree.endAll a = some () ∧
    ∀ w ∈ AnchorTree.postParticipants a, Control.topCleared w = true
  | .nil, _ => by simp [AnchorTree.endAll, AnchorTree.postParticipants]
  | .cons c m sc rest, h => by
    have hc : Control.isWindowTree c = true := by
      simp [AnchorTree.windowsTree] at h
      exact h.1
    have hrest : AnchorTree.windowsTree rest = true := by
      simp [AnchorTree.windowsTree] at h
      exact h.2
    obtain ⟨hce, hcp⟩ := Control.endSize_clears_aux c hc
    obtain ⟨hre, hrp⟩ := AnchorTree.endAll_clears_aux rest hrest
    constructor
    · obtain ⟨c2, hc2⟩ := Option.isSome_iff_exists.mp hce
      simp only [AnchorTree.endAll]
      rw [hc2]
      exact hre
    · intro w hw
      simp only [AnchorTree.postParticipants] at hw
      rcases List.mem_append.mp hw with h1 | h2
      · exact hcp w h1
      · exact hrp w h2
end

/-- C6: for every resize gesture whose participants (the master and,
recursively, every anchored panel) are windows, running the master's
end-of-gesture handler succeeds and leaves every participating window
with an empty `AnchorControls` and all four ruler slots empty,
regardless of how many panels were anchored. -/
theorem OnEndSize_clears_every_participant (c : Control)
    (h : Control.isWindowTree c = true) :
    (Control.OnEndSize c).isSome = true ∧
    ∀ w ∈ Control.postParticipants c, Control.topCleared w = true :=
  Control.endSize_clears_aux c h

/-- Witness for C6: a master with two anchored windows, one of which
anchors a further window, live rulers on two of them; ending the
gesture clears them all. -/
theorem OnEndSize_clears_every_participant_witness :
    Control.isWindowTree
      (.window ⟨⟨0, 0⟩, ⟨200, 200⟩⟩ ⟨some 1, none, none, some 7⟩
        (.cons (.window ⟨⟨200, 0⟩, ⟨250, 200⟩⟩ ⟨none, some 2, none, none⟩ .nil)
          ⟨-1, 0⟩ 1
          (.cons (.window ⟨⟨0, 200⟩, ⟨200, 260⟩⟩ ⟨none, none, none, none⟩
              (.cons (.window ⟨⟨10, 210⟩, ⟨60, 250⟩⟩ ⟨none, none, none, none⟩ .nil)
                ⟨0, 1⟩ (-1) .nil))
            ⟨0, -1⟩ 1 .nil))) = true ∧
    ((Control.OnEndSize
      (.window ⟨⟨0, 0⟩, ⟨200, 200⟩⟩ ⟨some 1, none, none, some 7⟩
        (.cons (.window ⟨⟨200, 0⟩, ⟨250, 200⟩⟩ ⟨none, some 2, none, none⟩ .nil)
          ⟨-1, 0⟩ 1
          (.cons (.window ⟨⟨0, 200⟩, ⟨200, 260⟩⟩ ⟨none, none, none, none⟩
              (.cons (.window ⟨⟨10, 210⟩, ⟨60, 250⟩⟩ ⟨none, none, none, none⟩ .nil)
                ⟨0, 1⟩ (-1) .nil))
            ⟨0, -1⟩ 1 .nil)))).isSome = true ∧
      ∀ w ∈ Control.postParticipants
        (.window ⟨⟨0, 0⟩, ⟨200, 200⟩⟩ ⟨some 1, none, none, some 7⟩
          (.cons (.window ⟨⟨200, 0⟩, ⟨250, 200⟩⟩ ⟨none, some 2, none, none⟩ .nil)
            ⟨-1, 0⟩ 1
            (.cons (.window ⟨⟨0, 200⟩, ⟨200, 260⟩⟩ ⟨none, none, none, none⟩
                (.cons (.window ⟨⟨10, 210⟩, ⟨60, 250⟩⟩ ⟨none, none, none, none⟩ .nil)
                  ⟨0, 1⟩ (-1) .nil))
              ⟨0, -1⟩ 1 .nil))),
        Control.topCleared w = true) :=
  ⟨rfl,
    OnEndSize_clears_every_participant
      (.window ⟨⟨0, 0⟩, ⟨200, 200⟩⟩ ⟨some 1, none, none, some 7⟩
        (.cons (.window ⟨⟨200, 0⟩, ⟨250, 200⟩⟩ ⟨none, some 2, none, none⟩ .nil)
          ⟨-1, 0⟩ 1
          (.cons (.window ⟨⟨0, 200⟩, ⟨200, 260⟩⟩ ⟨none, none, none, none⟩
              (.cons (.window ⟨⟨10, 210⟩, ⟨60, 250⟩⟩ ⟨none, none, none, none⟩ .nil)
                ⟨0, 1⟩ (-1) .nil))
            ⟨0, -1⟩ 1 .nil)))
      rfl⟩

/-- C8: the claimed silent skip of non-`Window` anchor entries does not
happen.  TypeScript erases the `as Window` cast, so the
`window != null` guard passes for every non-null entry and the resize
handlers are invoked on the non-window panel, which lacks them: ending
a gesture whose anchor list holds a plain control throws (modelled as
`none`) instead of skipping the entry, and the master's own teardown
never runs.  `OnBeginSize` (line 413-419) and `OnSize` (lines 510-516)
use the same erased-cast loop. -/
theorem OnEndSize_nonwindow_not_skipped :
    Control.OnEndSize (.window ⟨⟨0, 0⟩, ⟨100, 100⟩⟩ ⟨none, none, none, none⟩
      (.cons (.plain ⟨⟨100, 0⟩, ⟨150, 100⟩⟩) ⟨-1, 0⟩ 1 .nil)) = none := rfl

end WM
